import Mathlib

/-
Shallow embedding of the cloudy-python Salesforce client library
(src/cloudy_salesforce), covering the batch-writer orchestration
(collections/crud_operations.py) and the paginated reader with nested
sub-query resolution (query/query.py).

Python dicts are modelled as ordered association lists (Python dicts
preserve insertion order; assignment to an existing key overwrites the
value in place, otherwise appends).  Python exceptions are modelled with
Except.  Unbounded while loops and data-driven recursion are given an
explicit fuel argument; theorems hypothesise sufficient fuel and refer to
fuel exhaustion with a dedicated error constructor.
-/

namespace Cloudy

/-- JSON-like values as produced by response.json() and manipulated by the
library: strings, integers, booleans, null, ordered objects and arrays. -/
inductive Value where
  | vstr : String → Value
  | vint : Int → Value
  | vbool : Bool → Value
  | vnull : Value
  | vobj : List (String × Value) → Value
  | varr : List Value → Value
deriving Repr

/-- A Python dict with string keys, in insertion order. -/
abbrev PyDict := List (String × Value)

/-- First-match key lookup, modelling Python d[k] / k in d. -/
def dlookup (d : PyDict) (k : String) : Option Value :=
  match d with
  | [] => none
  | (k', v) :: rest => if k' = k then some v else dlookup rest k

/-- Python dict assignment d[k] = v: overwrite the first occurrence in
place, otherwise append the new key at the end. -/
def dictSet (d : PyDict) (k : String) (v : Value) : PyDict :=
  match d with
  | [] => [(k, v)]
  | (k', v') :: rest =>
    if k' = k then (k', v) :: rest else (k', v') :: dictSet rest k v

/-- Python truthiness of a JSON value, as used by the library in
conditions such as: if not response[\x22success\x22]. -/
def Value.truthy : Value → Bool
  | .vstr s => s != ""
  | .vint n => n != 0
  | .vbool b => b
  | .vnull => false
  | .vobj d => !d.isEmpty
  | .varr l => !l.isEmpty

/-- Python identity test against None. -/
def Value.isNull : Value → Bool
  | .vnull => true
  | _ => false

/-! ## batch_records (crud_operations.py, line 210)

Python: return [records[i : i + batch_size] for i in range(0, len(records), batch_size)]

range(0, stop, step) raises ValueError when step == 0, is empty for
step < 0 (since stop = len(records) is at least 0), and otherwise counts
0, step, 2*step, ... while below stop.  The slice records[i : i + bs] with
bs > 0 is drop i followed by take bs. -/

/-- The list produced by range(0, stop, s) for a positive step s. -/
def posRangeList (stop s : Nat) : List Nat :=
  (List.range ((stop + s - 1) / s)).map (· * s)

/-- Python range(0, stop, step) for an arbitrary integer step: ValueError
on a zero step, empty for a negative step (start 0 is never greater than
the nonnegative stop). -/
def rangeStep (stop : Nat) (step : Int) : Except String (List Nat) :=
  if step = 0 then .error "range() arg 3 must not be zero"
  else if step < 0 then .ok []
  else .ok (posRangeList stop step.toNat)

/-- batch_records from crud_operations.py: slice the record list into
contiguous chunks starting at the indices produced by range. -/
def batch_records {α : Type} (records : List α) (batch_size : Int) :
    Except String (List (List α)) :=
  (rangeStep records.length batch_size).map
    (fun idxs => idxs.map (fun i => (records.drop i).take batch_size.toNat))

/-! ## crud_operations.py: the collections batch writer -/

/-- The four CRUD operation kinds of the collections module. -/
inductive CRUDOp where
  | insert
  | update
  | upsert
  | delete
deriving DecidableEq, Repr

/-- HTTP method selected by the CRUDOperation enum for each operation. -/
def CRUDOp.method : CRUDOp → String
  | .insert => "POST"
  | .update => "PATCH"
  | .upsert => "PATCH"
  | .delete => "DELETE"

/-- Python exceptions that can escape the collections wrapper. -/
inductive CErr where
  | valueError (msg : String)
  | keyError (k : String)
  | typeError
  | httpError
deriving DecidableEq, Repr

/-- Python str() of a bool, as interpolated into the delete url. -/
def pyBoolStr (b : Bool) : String := if b then "True" else "False"

/-- add_attributes, crud_operations.py line 214: every record gets its
attributes key set to a dict tagging the object type.  The source mutates
the records in place and returns the same list; the embedding returns the
updated records explicitly. -/
def add_attributes (records : List PyDict) (object_type : String) : List PyDict :=
  records.map (fun r => dictSet r "attributes" (.vobj [("type", .vstr object_type)]))

/-- get_id_list, crud_operations.py line 220: collect each record's Id
value, falling back to the lowercase id key, raising ValueError when a
record has neither.  The source's message also interpolates the record;
the embedding keeps the constant part. -/
def get_id_list : List PyDict → Except CErr (List Value)
  | [] => .ok []
  | r :: rest =>
    match dlookup r "Id" with
    | some v => (get_id_list rest).map (v :: ·)
    | none =>
      match dlookup r "id" with
      | some v => (get_id_list rest).map (v :: ·)
      | none => .error (.valueError "Record does not contain an Id/id field")

/-- Python comma-join over the id values: every element must be a str,
otherwise join raises TypeError. -/
def joinIds : List Value → Except CErr String
  | [] => .ok ""
  | [.vstr s] => .ok s
  | .vstr s :: v :: rest => (joinIds (v :: rest)).map (fun t => s ++ "," ++ t)
  | _ => .error .typeError

/-- build_payload, crud_operations.py line 233.  Returns the request url
and optional body exactly as the source computes them, paired with the
record list after the in-place add_attributes mutation (delete leaves the
records untouched).  The source gives external_id a None default and the
collections wrapper never forwards it. -/
def build_payload (operation : CRUDOp) (records : List PyDict)
    (object_type : String) (all_or_none : Bool) (external_id : Option String) :
    Except CErr ((String × Option Value) × List PyDict) :=
  if operation = .delete then
    match get_id_list records with
    | .error e => .error e
    | .ok ids =>
      match joinIds ids with
      | .error e => .error e
      | .ok idstr =>
        .ok ((("/services/data/v61.0/composite/sobjects?ids=" ++ idstr
            ++ "&allOrNone=" ++ pyBoolStr all_or_none), none), records)
  else
    let tagged := add_attributes records object_type
    let body : Value := .vobj [("allOrNone", .vbool all_or_none),
      ("records", .varr (tagged.map Value.vobj))]
    if operation = .upsert then
      let ext := external_id.getD "Id"
      .ok ((("/services/data/v61.0/composite/sobjects/" ++ object_type
          ++ "/" ++ ext), some body), tagged)
    else
      .ok (("/services/data/v60.0/composite/sobjects/", some body), tagged)

/-- One record paired with its per-record outcome, as accumulated by the
collections wrapper into its results list. -/
structure OperationResult where
  record : PyDict
  response : Value
deriving Repr

/-- True when a response element is a dict carrying a success key, so the
wrapper's classification does not raise. -/
def isSuccessResp : Value → Bool
  | .vobj od => (dlookup od "success").isSome
  | _ => false

/-- True exactly on string values. -/
def isStrVal : Value → Bool
  | .vstr _ => true
  | _ => false

/-- True when get_id_list and the comma-join accept the record: an Id key
holding a string, or failing that an id key holding a string. -/
def hasStrId (r : PyDict) : Bool :=
  match dlookup r "Id" with
  | some v => isStrVal v
  | none =>
    match dlookup r "id" with
    | some v => isStrVal v
    | none => false

/-- The zip-and-classify loop of the collections wrapper, lines 98-107:
zip truncates at the shorter list; each zipped response is read at key
success (KeyError when absent, TypeError when the response element is not
a dict), and the pair is appended to the results. -/
def zipClassify : List PyDict → List Value → Except CErr (List OperationResult)
  | _, [] => .ok []
  | [], _ => .ok []
  | r :: rs, o :: os =>
    match o with
    | .vobj od =>
      match dlookup od "success" with
      | none => .error (.keyError "success")
      | some _ => (zipClassify rs os).map (⟨r, o⟩ :: ·)
    | _ => .error .typeError

/-- A single gateway invocation issued by the wrapper: request url and
optional JSON body.  The HTTP method is fixed by the operation kind. -/
structure BatchCall where
  url : String
  body : Option Value
deriving Repr

/-- The per-batch loop of the collections decorator, crud_operations.py
lines 89-107.  gw i is the external gateway response of the i-th HTTP
call: .error models an HTTPError or transport exception raised inside
collections_request (which logs and re-raises), .ok a parsed JSON body.
Returns the gateway calls actually issued together with the outcome.
build_payload is invoked without an external_id argument, exactly as in
the source. -/
def runBatches (op : CRUDOp) (gw : Nat → Except Unit Value) (object_type : String)
    (all_or_none : Bool) : Nat → List (List PyDict) →
    List BatchCall × Except CErr (List OperationResult)
  | _, [] => ([], .ok [])
  | i, batch :: rest =>
    match build_payload op batch object_type all_or_none none with
    | .error e => ([], .error e)
    | .ok ((url, body), tagged) =>
      match gw i with
      | .error _ => ([⟨url, body⟩], .error .httpError)
      | .ok (.varr outs) =>
        match zipClassify tagged outs with
        | .error e => ([⟨url, body⟩], .error e)
        | .ok results =>
          let next := runBatches op gw object_type all_or_none (i + 1) rest
          (⟨url, body⟩ :: next.1, next.2.map (results ++ ·))
      | .ok _ => ([⟨url, body⟩], .error .typeError)

/-- The collections decorator body: batch the records, then run the
per-batch loop.  A ValueError raised by batch_records (zero batch size)
propagates before any gateway call. -/
def collections (op : CRUDOp) (gw : Nat → Except Unit Value) (object_type : String)
    (records : List PyDict) (all_or_none : Bool) (batch_size : Int) :
    List BatchCall × Except CErr (List OperationResult) :=
  match batch_records records batch_size with
  | .error e => ([], .error (.valueError e))
  | .ok batches => runBatches op gw object_type all_or_none 0 batches

/-- The props dict built by the upsert entry point, crud_operations.py
line 166. -/
structure UpsertProps where
  object_type : String
  records : List PyDict
  external_id_field : Option String
  all_or_none : Bool
  batch_size : Int

/-- upsert: builds UpsertProps carrying external_id_field, then runs the
collections decorator, which reads only object_type, records, all_or_none
and batch_size from the props.  external_id_field is never forwarded to
build_payload, mirroring the wrapper at crud_operations.py line 91. -/
def upsert (gw : Nat → Except Unit Value) (object_type : String)
    (records : List PyDict) (external_id_field : Option String)
    (all_or_none : Bool) (batch_size : Int) :
    List BatchCall × Except CErr (List OperationResult) :=
  let props : UpsertProps :=
    ⟨object_type, records, external_id_field, all_or_none, batch_size⟩
  collections .upsert gw props.object_type props.records props.all_or_none
    props.batch_size

/-- insert entry point: props pass straight through to the decorator. -/
def insert (gw : Nat → Except Unit Value) (object_type : String)
    (records : List PyDict) (all_or_none : Bool) (batch_size : Int) :
    List BatchCall × Except CErr (List OperationResult) :=
  collections .insert gw object_type records all_or_none batch_size

/-- update entry point: props pass straight through to the decorator. -/
def update (gw : Nat → Except Unit Value) (object_type : String)
    (records : List PyDict) (all_or_none : Bool) (batch_size : Int) :
    List BatchCall × Except CErr (List OperationResult) :=
  collections .update gw object_type records all_or_none batch_size

/-- delete entry point: props pass straight through to the decorator. -/
def delete (gw : Nat → Except Unit Value) (object_type : String)
    (records : List PyDict) (all_or_none : Bool) (batch_size : Int) :
    List BatchCall × Except CErr (List OperationResult) :=
  collections .delete gw object_type records all_or_none batch_size

/-- A gateway that answers every call with a one-element outcome list
whose single entry is a successful response dict. -/
def gwOk1 : Nat → Except Unit Value :=
  fun _ => .ok (.varr [.vobj [("success", .vbool true)]])

/-- Two one-field records used by concrete counterexamples. -/
def recsTwo : List PyDict := [[("Name", Value.vstr "a")], [("Name", Value.vstr "b")]]

/-- A successful per-record outcome dict. -/
def okResp : Value := .vobj [("success", .vbool true)]

/-- Three one-field records used by concrete instantiations. -/
def recsThree : List PyDict :=
  [[("Name", Value.vstr "a")], [("Name", Value.vstr "b")], [("Name", Value.vstr "c")]]

/-- Outcome lists for a two-batch run: two outcomes for the first call,
one for the second. -/
def outsF2 : Nat → List Value := fun j => if j = 0 then [okResp, okResp] else [okResp]

/-- A gateway answering call j with the outcome list outsF2 j. -/
def gwC2 : Nat → Except Unit Value := fun j => .ok (.varr (outsF2 j))

/-- A gateway whose first call succeeds and whose second call raises. -/
def gwC7 : Nat → Except Unit Value :=
  fun j => if j = 0 then .ok (.varr [okResp]) else .error ()

/-- The record and tagged record of the C9 instantiation. -/
def recX : PyDict := [("Name", Value.vstr "x")]

/-- recX after the attributes type tag is written. -/
def recXTagged : PyDict :=
  [("Name", Value.vstr "x"), ("attributes", Value.vobj [("type", Value.vstr "Account")])]

/-- The insert body for the single record recX. -/
def bodyC9 : Value :=
  .vobj [("allOrNone", .vbool true), ("records", .varr [.vobj recXTagged])]

/-! ## query/query.py: the paginated reader with nested resolution -/

/-- Python exceptions raised inside the reader, plus fuel exhaustion for
the source's unbounded while loop and unbounded recursion. -/
inductive QErr where
  | fuel
  | valueError
  | keyError (k : String)
  | typeError
deriving DecidableEq, Repr

/-- The cursor-following loop query_all (query.py lines 47-62), one
recursive step per iteration.  The loop condition reads the accumulator's
done key (KeyError when absent) and stops when it is truthy or the url is
None.  Each iteration asks the gateway gw for the url with the optional
params, requires a dict response (ValueError otherwise), extends the
accumulator's records with the response's records (both must be lists),
overwrites done, totalSize and nextRecordsUrl with the response's values
(an absent nextRecordsUrl is stored as None via dict.get), then continues
at the stored cursor with params cleared. -/
def query_all (gw : Value → Option Value → Value) :
    Nat → Value → Option Value → PyDict → Except QErr PyDict
  | 0, _, _, _ => .error .fuel
  | fuel + 1, url, params, res =>
    match dlookup res "done" with
    | none => .error (.keyError "done")
    | some doneV =>
      if doneV.truthy then .ok res
      else if url.isNull then .ok res
      else
        match gw url params with
        | .vobj qr =>
          match dlookup qr "records" with
          | none => .error (.keyError "records")
          | some qrecsV =>
            match dlookup res "records" with
            | none => .error (.keyError "records")
            | some rrecsV =>
              match qrecsV, rrecsV with
              | .varr newRecs, .varr oldRecs =>
                match dlookup qr "done" with
                | none => .error (.keyError "done")
                | some dV =>
                  match dlookup qr "totalSize" with
                  | none => .error (.keyError "totalSize")
                  | some tV =>
                    query_all gw fuel ((dlookup qr "nextRecordsUrl").getD .vnull)
                      none
                      (dictSet (dictSet (dictSet (dictSet res "records"
                        (.varr (oldRecs ++ newRecs))) "done" dV) "totalSize" tV)
                        "nextRecordsUrl"
                        ((dlookup qr "nextRecordsUrl").getD .vnull))
              | _, _ => .error .typeError
        | _ => .error .valueError

/-- Sequential effectful map: iterate in order and abort at the first
exception, as a Python for loop over the list does. -/
def mapExcept {α β : Type} (f : α → Except QErr β) :
    List α → Except QErr (List β)
  | [] => .ok []
  | a :: as => do
    let b ← f a
    let bs ← mapExcept f as
    pure (b :: bs)

/-- Processing of one field value by handle_nested_queries (query.py lines
64-71): a dict value containing a nextRecordsUrl key is resolved by
running query_all from its stored cursor against the dict itself, after
which the resolver continuation is applied to the resulting child record
list and the outcome stored back under records.  Every other value passes
through untouched. -/
def hnq_value (resolve : List Value → Except QErr (List Value))
    (gw : Value → Option Value → Value) (pf : Nat) : Value → Except QErr Value
  | .vobj d =>
    if (dlookup d "nextRecordsUrl").isSome then do
      let d1 ← query_all gw pf ((dlookup d "nextRecordsUrl").getD .vnull) none d
      match dlookup d1 "records" with
      | some (.varr childRecs) => do
        let cr ← resolve childRecs
        pure (.vobj (dictSet d1 "records" (.varr cr)))
      | some _ => .error .typeError
      | none => .error (.keyError "records")
    else pure (.vobj d)
  | v => pure v

/-- Processing of one record: iterate its fields in order (record.items()),
resolving each nested-collection value.  A non-dict record raises when its
items method is missing. -/
def hnq_record (resolve : List Value → Except QErr (List Value))
    (gw : Value → Option Value → Value) (pf : Nat) : Value → Except QErr Value
  | .vobj fields => do
    let fields' ← mapExcept (fun kv => do
      let v' ← hnq_value resolve gw pf kv.2
      pure (kv.1, v')) fields
    pure (.vobj fields')
  | _ => .error .typeError

/-- handle_nested_queries: process every record; the newly pulled child
records are scanned recursively through the resolver continuation.  The
nesting fuel nf bounds the recursion depth of the source's unbounded
recursion. -/
def hnq_records (gw : Value → Option Value → Value) (pf : Nat) :
    Nat → List Value → Except QErr (List Value)
  | 0, _ => .error .fuel
  | nf + 1, records => mapExcept (hnq_record (hnq_records gw pf nf) gw pf) records

/-- The initial accumulator of the soql_query wrapper. -/
def initResults : PyDict :=
  [("totalSize", .vint 0), ("done", .vbool false), ("records", .varr []),
    ("nextRecordsUrl", .vnull)]

/-- The soql_query decorator wrapper specialised to the query entry point
(default endpoint, query.py lines 30-88): run the cursor loop from the
fixed query endpoint with the soql string as the q parameter, then run
handle_nested_queries over the accumulated records.  Returns the results
dict exactly as it is handed to the pluggable return_function. -/
def query (gw : Value → Option Value → Value) (pf nf : Nat) (soql : String) :
    Except QErr PyDict := do
  let res ← query_all gw pf (.vstr "/services/data/v52.0/query")
    (some (.vobj [("q", .vstr soql)])) initResults
  match dlookup res "records" with
  | some (.varr recs) => do
    let recs' ← hnq_records gw pf nf recs
    pure (dictSet res "records" (.varr recs'))
  | some _ => .error .typeError
  | none => .error (.keyError "records")

/-- A server page of the query response shape. -/
structure Page where
  recs : List Value
  done : Bool
  totalSize : Int
  nextUrl : Option String

/-- The response dict of a page: nextRecordsUrl is present only when the
page carries a cursor. -/
def Page.toDict (p : Page) : PyDict :=
  [("totalSize", .vint p.totalSize), ("done", .vbool p.done),
    ("records", .varr p.recs)] ++
    (match p.nextUrl with
     | some u => [("nextRecordsUrl", .vstr u)]
     | none => [])

/-- The JSON value of a page response. -/
def Page.toValue (p : Page) : Value := .vobj p.toDict

/-- The value stored for nextRecordsUrl after processing the page: an
absent key becomes None through dict.get. -/
def Page.nextVal (p : Page) : Value :=
  match p.nextUrl with
  | some u => .vstr u
  | none => .vnull

/-- The gateway serves the given nonempty page chain starting at the given
url and params: every non-final page is not done and links to the next
page through its cursor.  The final page's own flags are unconstrained;
terminal conditions enter the theorems as separate hypotheses. -/
def chainPages (gw : Value → Option Value → Value) :
    Value → Option Value → List Page → Prop
  | _, _, [] => True
  | url, params, [p] => gw url params = p.toValue
  | url, params, p :: q :: ps =>
    gw url params = p.toValue ∧ p.done = false ∧
    ∃ u, p.nextUrl = some u ∧ chainPages gw (.vstr u) none (q :: ps)

/-- A dict value carrying a nextRecordsUrl key, which is exactly what the
nested scan resolves. -/
def isCursorDict : Value → Bool
  | .vobj d => (dlookup d "nextRecordsUrl").isSome
  | _ => false

/-- A record none of whose field values is a nested collection. -/
def flatRecord : Value → Bool
  | .vobj fields => fields.all (fun kv => !isCursorDict kv.2)
  | _ => false

/-- A one-field record served by the concrete gateways. -/
def rec1 : Value := .vobj [("Id", Value.vstr "r1")]

/-- A second one-field record served by the concrete gateways. -/
def rec2 : Value := .vobj [("Id", Value.vstr "r2")]

/-- First page of the two-page chain: totalSize 5, not done, cursor /c1. -/
def pageA : Page := ⟨[rec1], false, 5, some "/c1"⟩

/-- Second page of the two-page chain: totalSize 7, done, no cursor. -/
def pageB : Page := ⟨[rec2], true, 7, none⟩

/-- A gateway serving pageA at the query endpoint and pageB at /c1. -/
def gwC3 : Value → Option Value → Value := fun url _ =>
  match url with
  | .vstr u => if u = "/c1" then pageB.toValue else pageA.toValue
  | _ => pageA.toValue

/-- Field projection from a reader outcome, for concrete statements. -/
def queryField (e : Except QErr PyDict) (k : String) : Option Value :=
  match e with
  | .ok d => dlookup d k
  | .error _ => none

/-- A malformed terminal page: done false and no cursor. -/
def pageC : Page := ⟨[rec1], false, 3, none⟩

/-- A gateway always serving the malformed page. -/
def gwC4 : Value → Option Value → Value := fun _ _ => pageC.toValue

/-- A child record already present in the nested collection. -/
def childA : Value := .vobj [("Id", Value.vstr "c1")]

/-- A child record fetched from the nested cursor. -/
def childB : Value := .vobj [("Id", Value.vstr "c2")]

/-- The single page served for the nested cursor. -/
def nestedPage : Page := ⟨[childB], true, 2, none⟩

/-- A gateway serving the nested page for every request. -/
def gwC6 : Value → Option Value → Value := fun _ _ => nestedPage.toValue

/-- A nested collection value: one partial child record plus a cursor. -/
def nestedD : PyDict :=
  [("totalSize", .vint 2), ("done", .vbool false),
    ("records", .varr [childA]), ("nextRecordsUrl", .vstr "/n1")]

/-! ## Theorems -/

theorem dlookup_dictSet_self (d : PyDict) (k : String) (v : Value) :
    dlookup (dictSet d k v) k = some v := by
  induction d with
  | nil => simp [dictSet, dlookup]
  | cons kv rest ih =>
    obtain ⟨k', v'⟩ := kv
    by_cases h : k' = k <;> simp [dictSet, dlookup, h, ih]

theorem dlookup_dictSet_ne (d : PyDict) (k k' : String) (v : Value)
    (h : k' ≠ k) : dlookup (dictSet d k v) k' = dlookup d k' := by
  induction d with
  | nil => simp [dictSet, dlookup, Ne.symm h]
  | cons kv rest ih =>
    obtain ⟨k0, v0⟩ := kv
    by_cases h0 : k0 = k
    · subst h0
      simp [dictSet, dlookup, Ne.symm h]
    · simp [dictSet, dlookup, h0, ih]

theorem batch_records_pos {α : Type} (records : List α) (bs : Int) (hbs : 0 < bs) :
    batch_records records bs =
      .ok ((posRangeList records.length bs.toNat).map
        (fun i => (records.drop i).take bs.toNat)) := by
  rw [batch_records, rangeStep, if_neg (by omega), if_neg (by omega)]
  rfl

theorem batch_records_neg {α : Type} (records : List α) (bs : Int) (hbs : bs < 0) :
    batch_records records bs = .ok [] := by
  rw [batch_records, rangeStep, if_neg (by omega), if_pos hbs]
  rfl

theorem batch_records_zero {α : Type} (records : List α) :
    batch_records records 0 = .error "range() arg 3 must not be zero" := by
  rw [batch_records, rangeStep, if_pos rfl]
  rfl

theorem count_succ (n s : Nat) (hs : 0 < s) (hn : 0 < n) :
    (n + s - 1) / s = (n - s + s - 1) / s + 1 := by
  rcases le_or_lt s n with h | h
  · have h1 : n + s - 1 = (n - s + s - 1) + s := by omega
    rw [h1, Nat.add_div_right _ hs]
  · have h1 : n - s = 0 := by omega
    have h2 : n + s - 1 = (n - 1) + s := by omega
    rw [h1, h2, Nat.add_div_right _ hs, Nat.zero_add,
      Nat.div_eq_of_lt (by omega), Nat.div_eq_of_lt (by omega)]

theorem slices_join {α : Type} (n : Nat) :
    ∀ (recs : List α) (s : Nat), 0 < s → recs.length ≤ n →
      ((posRangeList recs.length s).map (fun i => (recs.drop i).take s)).flatten
        = recs := by
  induction n with
  | zero =>
    intro recs s hs hlen
    have hnil : recs = [] := List.eq_nil_of_length_eq_zero (by omega)
    subst hnil
    simp [posRangeList, Nat.div_eq_of_lt (show s - 1 < s by omega)]
  | succ n ih =>
    intro recs s hs hlen
    rcases recs with _ | ⟨a, as⟩
    · simp [posRangeList, Nat.div_eq_of_lt (show s - 1 < s by omega)]
    · have hpos : 0 < (a :: as).length := by simp
      rw [posRangeList, count_succ _ s hs hpos, List.range_succ_eq_map]
      simp only [List.map_cons, List.map_map, List.flatten_cons, Nat.zero_mul,
        List.drop_zero]
      have hfun : ((fun i => ((a :: as).drop i).take s) ∘ (· * s) ∘ Nat.succ)
          = (fun i => ((((a :: as).drop s).drop (i * s)).take s)) := by
        funext i
        simp only [Function.comp_apply, List.drop_drop]
        rw [Nat.succ_mul, Nat.add_comm (i * s) s]
      rw [hfun]
      have hlen2 : ((a :: as).drop s).length ≤ n := by
        simp only [List.length_drop, List.length_cons]
        simp only [List.length_cons] at hlen
        omega
      have hthis := ih ((a :: as).drop s) s hs hlen2
      rw [posRangeList, List.map_map] at hthis
      have hfun2 : ((fun i => (((a :: as).drop s).drop i).take s) ∘ (· * s))
          = (fun i => ((((a :: as).drop s).drop (i * s)).take s)) := rfl
      rw [hfun2] at hthis
      have hdl : (a :: as).length - s + s - 1 = ((a :: as).drop s).length + s - 1 := by
        simp [List.length_drop]
      rw [hdl, hthis, List.take_append_drop]

/-- Claim C8: for every record list and positive batch size, the batches
produced by batch_records are a partition: their concatenation restores
the original list in order and every batch has length at most batch_size. -/
theorem C8_batch_partition {α : Type} (records : List α) (batch_size : Int)
    (hbs : 0 < batch_size) :
    ∃ batches, batch_records records batch_size = .ok batches ∧
      batches.flatten = records ∧
      ∀ b ∈ batches, (b.length : Int) ≤ batch_size := by
  have hs : 0 < batch_size.toNat := by omega
  refine ⟨_, batch_records_pos records batch_size hbs, ?_, ?_⟩
  · exact slices_join records.length records batch_size.toNat hs le_rfl
  · intro b hb
    simp only [List.mem_map] at hb
    obtain ⟨i, _, rfl⟩ := hb
    have hle : ((records.drop i).take batch_size.toNat).length ≤ batch_size.toNat := by
      simp [List.length_take]
    omega

theorem C8_batch_partition_witness :
    0 < (2 : Int) ∧
      ∃ batches, batch_records [10, 20, 30] (2 : Int) = .ok batches ∧
        batches.flatten = [10, 20, 30] ∧ ∀ b ∈ batches, (b.length : Int) ≤ 2 :=
  ⟨by omega, C8_batch_partition [10, 20, 30] 2 (by omega)⟩

/-- Claim C5 (code bug evidence): the upsert pipeline ignores the
caller-supplied external_id_field.  With external_id_field set to
External_Id__c the single issued call still embeds Id in its path, even
though build_payload itself would embed the field had the wrapper
forwarded it. -/
theorem C5_upsert_ignores_external_id :
    (upsert gwOk1 "Account" [[("Name", Value.vstr "x")]]
        (some "External_Id__c") true 200).1
      = [⟨"/services/data/v61.0/composite/sobjects/Account/Id",
          some (Value.vobj [("allOrNone", Value.vbool true),
            ("records", Value.varr [Value.vobj [("Name", Value.vstr "x"),
              ("attributes", Value.vobj [("type", Value.vstr "Account")])]])])⟩] ∧
    (build_payload .upsert [[("Name", Value.vstr "x")]] "Account" true
        (some "External_Id__c")).map (fun x => x.1.1)
      = .ok "/services/data/v61.0/composite/sobjects/Account/External_Id__c" := by
  exact ⟨rfl, rfl⟩

/-- Claim C10: a negative batch size yields an empty range, so the write
returns an empty result list and issues no gateway call, silently dropping
every record; a zero batch size raises ValueError inside range before any
gateway call. -/
theorem C10_batch_size_guard (op : CRUDOp) (gw : Nat → Except Unit Value)
    (object_type : String) (records : List PyDict) (aon : Bool) (bs : Int) :
    (bs < 0 → collections op gw object_type records aon bs = ([], .ok [])) ∧
    (bs = 0 → collections op gw object_type records aon bs
      = ([], .error (.valueError "range() arg 3 must not be zero"))) := by
  constructor
  · intro h
    unfold collections
    rw [batch_records_neg records bs h]
    rfl
  · intro h
    subst h
    unfold collections
    rw [batch_records_zero]

theorem C10_batch_size_guard_witness :
    ((-1 : Int) < 0 ∧
      collections .insert gwOk1 "Account" [[("Name", Value.vstr "x")]] true (-1)
        = ([], .ok [])) ∧
    collections .insert gwOk1 "Account" [[("Name", Value.vstr "x")]] true 0
      = ([], .error (.valueError "range() arg 3 must not be zero")) :=
  ⟨⟨by omega, (C10_batch_size_guard .insert gwOk1 "Account"
      [[("Name", Value.vstr "x")]] true (-1)).1 (by omega)⟩,
    (C10_batch_size_guard .insert gwOk1 "Account"
      [[("Name", Value.vstr "x")]] true 0).2 rfl⟩

/-- Claim C1 counterexample: a batch of two records whose gateway call
returns a single outcome is not rejected.  The wrapper zips positionally,
truncates to the shorter side and returns one result without raising any
arity error. -/
theorem C1_counterexample :
    (collections .insert gwOk1 "Account" recsTwo true 200).2
      = .ok [⟨[("Name", Value.vstr "a"),
          ("attributes", Value.vobj [("type", Value.vstr "Account")])],
          Value.vobj [("success", Value.vbool true)]⟩] := rfl

theorem zipClassify_ok (rs : List PyDict) (os : List Value)
    (h : os.all isSuccessResp = true) :
    zipClassify rs os
      = .ok (List.zipWith (fun r o => OperationResult.mk r o) rs os) := by
  induction rs generalizing os with
  | nil => cases os <;> simp [zipClassify]
  | cons r rs ih =>
    cases os with
    | nil => simp [zipClassify]
    | cons o os =>
      simp only [List.all_cons, Bool.and_eq_true] at h
      obtain ⟨h1, h2⟩ := h
      cases o with
      | vobj od =>
        simp only [isSuccessResp] at h1
        obtain ⟨v, hv⟩ := Option.isSome_iff_exists.mp h1
        simp [zipClassify, hv, ih os h2, Except.map]
      | vstr s => simp [isSuccessResp] at h1
      | vint n => simp [isSuccessResp] at h1
      | vbool b => simp [isSuccessResp] at h1
      | vnull => simp [isSuccessResp] at h1
      | varr l => simp [isSuccessResp] at h1

theorem zipWith_mk_map_record (rs : List PyDict) (os : List Value)
    (h : os.length = rs.length) :
    (List.zipWith (fun r o => OperationResult.mk r o) rs os).map
      OperationResult.record = rs := by
  induction rs generalizing os with
  | nil => simp
  | cons r rs ih =>
    cases os with
    | nil => simp at h
    | cons o os =>
      simp only [List.length_cons, Nat.add_right_cancel_iff] at h
      simp [List.zipWith, ih os h]

theorem build_payload_not_delete (op : CRUDOp) (records : List PyDict)
    (ot : String) (aon : Bool) (ext : Option String) (hop : op ≠ .delete) :
    ∃ ub, build_payload op records ot aon ext
      = .ok (ub, add_attributes records ot) := by
  unfold build_payload
  rw [if_neg hop]
  by_cases hu : op = .upsert <;> simp [hu]

theorem isStrVal_eq (v : Value) (h : isStrVal v = true) : ∃ s, v = .vstr s := by
  cases v with
  | vstr s => exact ⟨s, rfl⟩
  | vint n => simp [isStrVal] at h
  | vbool b => simp [isStrVal] at h
  | vnull => simp [isStrVal] at h
  | vobj d => simp [isStrVal] at h
  | varr l => simp [isStrVal] at h

theorem get_id_list_ok (records : List PyDict)
    (h : records.all hasStrId = true) :
    ∃ ids, get_id_list records = .ok ids ∧ ids.all isStrVal = true := by
  induction records with
  | nil => exact ⟨[], rfl, rfl⟩
  | cons r rest ih =>
    simp only [List.all_cons, Bool.and_eq_true] at h
    obtain ⟨h1, h2⟩ := h
    obtain ⟨ids, hids, hall⟩ := ih h2
    unfold hasStrId at h1
    cases hId : dlookup r "Id" with
    | some v =>
      rw [hId] at h1
      obtain ⟨s, rfl⟩ := isStrVal_eq v h1
      refine ⟨.vstr s :: ids, ?_, ?_⟩
      · unfold get_id_list
        rw [hId]
        simp [hids, Except.map]
      · simp [List.all_cons, hall, isStrVal]
    | none =>
      rw [hId] at h1
      cases hid : dlookup r "id" with
      | some v =>
        rw [hid] at h1
        obtain ⟨s, rfl⟩ := isStrVal_eq v h1
        refine ⟨.vstr s :: ids, ?_, ?_⟩
        · unfold get_id_list
          rw [hId]
          simp [hid, hids, Except.map]
        · simp [List.all_cons, hall, isStrVal]
      | none => rw [hid] at h1; simp at h1

theorem joinIds_ok (ids : List Value)
    (h : ids.all isStrVal = true) :
    ∃ s, joinIds ids = .ok s := by
  induction ids with
  | nil => exact ⟨"", rfl⟩
  | cons v rest ih =>
    simp only [List.all_cons, Bool.and_eq_true] at h
    obtain ⟨h1, h2⟩ := h
    obtain ⟨s, rfl⟩ := isStrVal_eq v h1
    cases rest with
    | nil => exact ⟨s, rfl⟩
    | cons w ws =>
      obtain ⟨t, ht⟩ := ih h2
      exact ⟨s ++ "," ++ t, by simp [joinIds, ht, Except.map]⟩

theorem build_payload_delete (records : List PyDict) (ot : String)
    (aon : Bool) (ext : Option String) (h : records.all hasStrId = true) :
    ∃ url, build_payload .delete records ot aon ext
      = .ok ((url, none), records) := by
  obtain ⟨ids, hids, hall⟩ := get_id_list_ok records h
  obtain ⟨s, hs⟩ := joinIds_ok ids hall
  refine ⟨"/services/data/v61.0/composite/sobjects?ids=" ++ s
    ++ "&allOrNone=" ++ pyBoolStr aon, ?_⟩
  unfold build_payload
  rw [if_pos rfl]
  simp only [hids, hs]

/-- Claim C9: for insert, update and upsert the only mutation build_payload
makes to each record is writing the attributes type-tag key; every other
key of every record keeps its value, and delete returns the records
entirely unchanged. -/
theorem C9_frame (op : CRUDOp) (records : List PyDict) (ot : String)
    (aon : Bool) (ext : Option String) (ub : String × Option Value)
    (tagged : List PyDict)
    (h : build_payload op records ot aon ext = .ok (ub, tagged)) :
    (op = .delete → tagged = records) ∧
    (op ≠ .delete →
      tagged.length = records.length ∧
      ∀ i (hi : i < records.length),
        ∃ r', tagged[i]? = some r' ∧
          dlookup r' "attributes" = some (.vobj [("type", .vstr ot)]) ∧
          ∀ k, k ≠ "attributes" → dlookup r' k = dlookup records[i] k) := by
  constructor
  · intro hop
    subst hop
    unfold build_payload at h
    rw [if_pos rfl] at h
    cases hg : get_id_list records with
    | error e => simp only [hg] at h; cases h
    | ok ids =>
      simp only [hg] at h
      cases hj : joinIds ids with
      | error e => simp only [hj] at h; cases h
      | ok s =>
        simp only [hj] at h
        injection h with h'
        injection h' with h1 h2
        exact h2.symm
  · intro hop
    have hbp := build_payload_not_delete op records ot aon ext hop
    obtain ⟨ub', hub⟩ := hbp
    rw [hub] at h
    injection h with h'
    injection h' with h1 h2
    subst h2
    constructor
    · simp [add_attributes]
    · intro i hi
      refine ⟨dictSet records[i] "attributes" (.vobj [("type", .vstr ot)]), ?_, ?_, ?_⟩
      · simp only [add_attributes, List.getElem?_map, List.getElem?_eq_getElem hi,
          Option.map_some']
      · exact dlookup_dictSet_self _ _ _
      · intro k hk
        exact dlookup_dictSet_ne _ _ _ _ hk

theorem batch_records_flatten {α : Type} (records : List α) (bs : Int)
    (batches : List (List α)) (hbs : 0 < bs)
    (hb : batch_records records bs = .ok batches) : batches.flatten = records := by
  rw [batch_records_pos records bs hbs] at hb
  injection hb with hb'
  subst hb'
  exact slices_join records.length records bs.toNat (by omega) le_rfl

theorem batch_records_nil {α : Type} (bs : Int) (hbs : 0 < bs) :
    batch_records ([] : List α) bs = .ok [] := by
  rw [batch_records_pos [] bs hbs]
  simp [posRangeList, Nat.div_eq_of_lt (show bs.toNat - 1 < bs.toNat by omega)]

theorem batch_records_single {α : Type} (records : List α) (bs : Int)
    (hbs : 0 < bs) (hlen : records.length ≤ bs.toNat) (hne : records ≠ []) :
    batch_records records bs = .ok [records] := by
  rw [batch_records_pos records bs hbs]
  have hn : 0 < records.length := List.length_pos.mpr hne
  have hc : (records.length + bs.toNat - 1) / bs.toNat = 1 := by
    have h1 : records.length + bs.toNat - 1 = (records.length - 1) + bs.toNat := by
      omega
    rw [h1, Nat.add_div_right _ (by omega), Nat.div_eq_of_lt (by omega)]
  rw [posRangeList, hc]
  simp [List.range_succ, List.take_of_length_le hlen]

theorem batch_mem_subset {α : Type} (records : List α) (bs : Int)
    (batches : List (List α)) (hbs : 0 < bs)
    (hb : batch_records records bs = .ok batches) :
    ∀ b ∈ batches, ∀ x ∈ b, x ∈ records := by
  intro b hbmem x hx
  have hf := batch_records_flatten records bs batches hbs hb
  rw [← hf]
  exact List.mem_flatten.mpr ⟨b, hbmem, hx⟩

theorem all_batch {α : Type} (p : α → Bool) (records : List α) (bs : Int)
    (batches : List (List α)) (hbs : 0 < bs)
    (hb : batch_records records bs = .ok batches)
    (h : records.all p = true) : ∀ b ∈ batches, b.all p = true := by
  intro b hbm
  rw [List.all_eq_true] at h ⊢
  intro x hx
  exact h x (batch_mem_subset records bs batches hbs hb b hbm x hx)

theorem runBatches_ok (op : CRUDOp) (gw : Nat → Except Unit Value) (ot : String)
    (aon : Bool) (outsF : Nat → List Value) :
    ∀ (batches : List (List PyDict)) (i : Nat),
      (op = .delete → ∀ b ∈ batches, b.all hasStrId = true) →
      (∀ j (hj : j < batches.length),
        gw (i + j) = .ok (.varr (outsF (i + j))) ∧
        (outsF (i + j)).all isSuccessResp = true ∧
        (outsF (i + j)).length = (batches.get ⟨j, hj⟩).length) →
      ∃ calls res, runBatches op gw ot aon i batches = (calls, .ok res) ∧
        res.map OperationResult.record
          = (batches.map
              (fun b => if op = .delete then b else add_attributes b ot)).flatten ∧
        res.length = (batches.map List.length).sum := by
  intro batches
  induction batches with
  | nil =>
    intro i _ _
    exact ⟨[], [], rfl, rfl, rfl⟩
  | cons b rest ih =>
    intro i hdel houts
    have hbp : ∃ ub tagged, build_payload op b ot aon none = .ok (ub, tagged) ∧
        tagged = (if op = .delete then b else add_attributes b ot) := by
      by_cases hop : op = .delete
      · subst hop
        obtain ⟨url, hu⟩ := build_payload_delete b ot aon none (hdel rfl b (by simp))
        exact ⟨(url, none), b, hu, by simp⟩
      · obtain ⟨ub, hu⟩ := build_payload_not_delete op b ot aon none hop
        exact ⟨ub, _, hu, by simp [hop]⟩
    obtain ⟨⟨url, body⟩, tagged, hbp, htag⟩ := hbp
    obtain ⟨hg0, hs0, hl0⟩ := houts 0 (by simp)
    simp only [Nat.add_zero] at hg0 hs0 hl0
    have hl0' : (outsF i).length = b.length := by simpa using hl0
    have htl : tagged.length = b.length := by
      rw [htag]
      by_cases hop : op = .delete <;> simp [hop, add_attributes]
    have hzip := zipClassify_ok tagged (outsF i) hs0
    have houts' : ∀ j (hj : j < rest.length),
        gw (i + 1 + j) = .ok (.varr (outsF (i + 1 + j))) ∧
        (outsF (i + 1 + j)).all isSuccessResp = true ∧
        (outsF (i + 1 + j)).length = (rest.get ⟨j, hj⟩).length := by
      intro j hj
      have hx := houts (j + 1) (by simp; omega)
      have he : i + (j + 1) = i + 1 + j := by omega
      rw [he] at hx
      simpa using hx
    obtain ⟨calls', res', hrun, hmap, hlen⟩ :=
      ih (i + 1) (fun hop b' hb' => hdel hop b' (by simp [hb'])) houts'
    refine ⟨⟨url, body⟩ :: calls',
      List.zipWith (fun r o => OperationResult.mk r o) tagged (outsF i) ++ res',
      ?_, ?_, ?_⟩
    · simp only [runBatches, hbp, hg0, hzip, hrun]
      simp [Except.map]
    · have hz : (List.zipWith (fun r o => OperationResult.mk r o) tagged
          (outsF i)).map OperationResult.record = tagged :=
        zipWith_mk_map_record tagged (outsF i) (by omega)
      simp only [List.map_append, List.map_cons, List.flatten_cons]
      rw [hz, hmap, htag]
    · simp only [List.length_append, List.length_zipWith, hlen, List.map_cons,
        List.sum_cons]
      omega

/-- Claim C2: for every record list and positive batch size, if every
gateway call answers with one well-formed outcome per record of its batch,
the write succeeds, the result list has one entry per input record, and
the i-th result carries the i-th record (in its post-mutation form for the
tagging operations, unchanged for delete), preserving order across batch
boundaries. -/
theorem C2_order_preserved (op : CRUDOp) (gw : Nat → Except Unit Value)
    (ot : String) (records : List PyDict) (aon : Bool) (bs : Int)
    (outsF : Nat → List Value) (batches : List (List PyDict))
    (hbs : 0 < bs)
    (hb : batch_records records bs = .ok batches)
    (hdel : op = .delete → records.all hasStrId = true)
    (houts : ∀ j (hj : j < batches.length),
      gw j = .ok (.varr (outsF j)) ∧
      (outsF j).all isSuccessResp = true ∧
      (outsF j).length = (batches.get ⟨j, hj⟩).length) :
    ∃ calls res, collections op gw ot records aon bs = (calls, .ok res) ∧
      res.length = records.length ∧
      res.map OperationResult.record
        = (if op = .delete then records else add_attributes records ot) := by
  obtain ⟨calls, res, hrun, hmap, hlen⟩ :=
    runBatches_ok op gw ot aon outsF batches 0
      (fun hop => all_batch hasStrId records bs batches hbs hb (hdel hop))
      (by intro j hj; simpa using houts j hj)
  refine ⟨calls, res, ?_, ?_, ?_⟩
  · unfold collections
    simp only [hb]
    exact hrun
  · rw [hlen, ← List.length_flatten, batch_records_flatten records bs batches hbs hb]
  · rw [hmap]
    have hf := batch_records_flatten records bs batches hbs hb
    by_cases hop : op = .delete
    · simp only [hop, if_pos rfl]
      simpa using hf
    · simp only [if_neg hop, add_attributes, ← List.map_flatten, hf]

theorem C2_order_preserved_witness :
    0 < (2 : Int) ∧
      ∃ calls res, collections .insert gwC2 "Account" recsThree true 2
          = (calls, .ok res) ∧
        res.length = recsThree.length ∧
        res.map OperationResult.record
          = (if CRUDOp.insert = .delete then recsThree
             else add_attributes recsThree "Account") :=
  ⟨by omega, C2_order_preserved .insert gwC2 "Account" recsThree true 2 outsF2
    [[[("Name", Value.vstr "a")], [("Name", Value.vstr "b")]],
      [[("Name", Value.vstr "c")]]]
    (by omega) rfl (fun h => nomatch h)
    (by intro j hj
        have hj2 : j < 2 := by simpa using hj
        interval_cases j <;> exact ⟨rfl, rfl, rfl⟩)⟩

/-- Claim C1 amended: the wrapper performs no arity check on the outcome
list.  For a single-batch write whose gateway call returns a well-formed
outcome list of any length, the write succeeds and the results are the
positional zip truncated to the shorter of the batch and the outcome
list. -/
theorem C1_zip_truncates (op : CRUDOp) (gw : Nat → Except Unit Value)
    (ot : String) (records : List PyDict) (aon : Bool) (bs : Int)
    (outs : List Value)
    (hbs : 0 < bs) (hone : records.length ≤ bs.toNat)
    (hgw : gw 0 = .ok (.varr outs))
    (hsucc : outs.all isSuccessResp = true)
    (hdel : op = .delete → records.all hasStrId = true) :
    ∃ calls res, collections op gw ot records aon bs = (calls, .ok res) ∧
      res.length = min records.length outs.length := by
  rcases eq_or_ne records [] with hnil | hne
  · subst hnil
    refine ⟨[], [], ?_, by simp⟩
    unfold collections
    simp only [batch_records_nil bs hbs]
    rfl
  · have hb := batch_records_single records bs hbs hone hne
    have hbp : ∃ ub tagged, build_payload op records ot aon none
        = .ok (ub, tagged) ∧ tagged.length = records.length := by
      by_cases hop : op = .delete
      · subst hop
        obtain ⟨url, hu⟩ := build_payload_delete records ot aon none (hdel rfl)
        exact ⟨(url, none), records, hu, rfl⟩
      · obtain ⟨ub, hu⟩ := build_payload_not_delete op records ot aon none hop
        exact ⟨ub, _, hu, by simp [add_attributes]⟩
    obtain ⟨⟨url, body⟩, tagged, hbp, htl⟩ := hbp
    have hzip := zipClassify_ok tagged outs hsucc
    refine ⟨[⟨url, body⟩],
      List.zipWith (fun r o => OperationResult.mk r o) tagged outs, ?_, ?_⟩
    · unfold collections
      simp only [hb]
      simp only [runBatches, hbp, hgw, hzip]
      simp [Except.map, runBatches]
    · simp [List.length_zipWith, htl]

theorem C1_zip_truncates_witness :
    0 < (200 : Int) ∧
      ∃ calls res, collections .insert gwOk1 "Account" recsTwo true 200
          = (calls, .ok res) ∧
        res.length = min recsTwo.length
          [Value.vobj [("success", Value.vbool true)]].length :=
  ⟨by omega, C1_zip_truncates .insert gwOk1 "Account" recsTwo true 200
    [Value.vobj [("success", Value.vbool true)]]
    (by omega) (by decide) rfl rfl (fun h => nomatch h)⟩

theorem runBatches_fail (op : CRUDOp) (gw : Nat → Except Unit Value) (ot : String)
    (aon : Bool) :
    ∀ (batches : List (List PyDict)) (k i : Nat),
      k < batches.length →
      (op = .delete → ∀ b ∈ batches, b.all hasStrId = true) →
      (∀ j, j < k → ∃ outs, gw (i + j) = .ok (.varr outs) ∧
        outs.all isSuccessResp = true) →
      gw (i + k) = .error () →
      ∃ calls, runBatches op gw ot aon i batches = (calls, .error .httpError) ∧
        calls.length = k + 1 := by
  intro batches
  induction batches with
  | nil =>
    intro k i hk
    simp at hk
  | cons b rest ih =>
    intro k i hk hdel hok hfail
    have hbp : ∃ ub tagged, build_payload op b ot aon none = .ok (ub, tagged) := by
      by_cases hop : op = .delete
      · subst hop
        obtain ⟨url, hu⟩ := build_payload_delete b ot aon none (hdel rfl b (by simp))
        exact ⟨(url, none), b, hu⟩
      · obtain ⟨ub, hu⟩ := build_payload_not_delete op b ot aon none hop
        exact ⟨ub, _, hu⟩
    obtain ⟨⟨url, body⟩, tagged, hbp⟩ := hbp
    cases k with
    | zero =>
      rw [Nat.add_zero] at hfail
      refine ⟨[⟨url, body⟩], ?_, rfl⟩
      simp only [runBatches, hbp, hfail]
    | succ k' =>
      obtain ⟨outs, hg, hs⟩ := hok 0 (by omega)
      rw [Nat.add_zero] at hg
      have hzip := zipClassify_ok tagged outs hs
      obtain ⟨calls', hrun, hlen⟩ := ih k' (i + 1) (by simp at hk; omega)
        (fun hop b' hb' => hdel hop b' (by simp [hb']))
        (fun j hj => by
          have hx := hok (j + 1) (by omega)
          have he : i + (j + 1) = i + 1 + j := by omega
          rwa [he] at hx)
        (by
          have he : i + (k' + 1) = i + 1 + k' := by omega
          rwa [he] at hfail)
      refine ⟨⟨url, body⟩ :: calls', ?_, by simp [hlen]⟩
      simp only [runBatches, hbp, hg, hzip, hrun]
      simp [Except.map]

/-- Claim C7: if the gateway call for batch k raises (non-2xx status or
transport failure), the write aborts: exactly the calls for batches 0..k
are issued, none for later batches, and the caller receives the propagated
error instead of any partial result list. -/
theorem C7_abort_on_gateway_failure (op : CRUDOp) (gw : Nat → Except Unit Value)
    (ot : String) (records : List PyDict) (aon : Bool) (bs : Int)
    (batches : List (List PyDict)) (k : Nat)
    (hbs : 0 < bs) (hb : batch_records records bs = .ok batches)
    (hk : k < batches.length)
    (hdel : op = .delete → records.all hasStrId = true)
    (hok : ∀ j, j < k → ∃ outs, gw j = .ok (.varr outs) ∧
      outs.all isSuccessResp = true)
    (hfail : gw k = .error ()) :
    ∃ calls, collections op gw ot records aon bs = (calls, .error .httpError) ∧
      calls.length = k + 1 := by
  obtain ⟨calls, hrun, hlen⟩ := runBatches_fail op gw ot aon batches k 0 hk
    (fun hop => all_batch hasStrId records bs batches hbs hb (hdel hop))
    (by intro j hj; simpa using hok j hj)
    (by simpa using hfail)
  refine ⟨calls, ?_, hlen⟩
  unfold collections
  simp only [hb]
  exact hrun

theorem C7_abort_witness :
    0 < (1 : Int) ∧
      ∃ calls, collections .insert gwC7 "Account" recsThree true 1
        = (calls, .error .httpError) ∧ calls.length = 2 :=
  ⟨by omega, C7_abort_on_gateway_failure .insert gwC7 "Account" recsThree true 1
    [[[("Name", Value.vstr "a")]], [[("Name", Value.vstr "b")]],
      [[("Name", Value.vstr "c")]]] 1
    (by omega) rfl (by decide) (fun h => nomatch h)
    (by intro j hj
        have hj2 : j < 1 := by simpa using hj
        interval_cases j
        exact ⟨[okResp], rfl, rfl⟩)
    rfl⟩

theorem C9_frame_witness :
    (CRUDOp.insert = CRUDOp.delete → [recXTagged] = [recX]) ∧
    (CRUDOp.insert ≠ CRUDOp.delete →
      ([recXTagged] : List PyDict).length = ([recX] : List PyDict).length ∧
      ∀ i (hi : i < ([recX] : List PyDict).length),
        ∃ r', ([recXTagged] : List PyDict)[i]? = some r' ∧
          dlookup r' "attributes" = some (.vobj [("type", .vstr "Account")]) ∧
          ∀ k, k ≠ "attributes" →
            dlookup r' k = dlookup ([recX] : List PyDict)[i] k) :=
  C9_frame .insert [recX] "Account" true none
    ("/services/data/v60.0/composite/sobjects/", some bodyC9) [recXTagged] rfl

theorem page_dlookup_totalSize (p : Page) :
    dlookup p.toDict "totalSize" = some (.vint p.totalSize) := rfl

theorem page_dlookup_done (p : Page) :
    dlookup p.toDict "done" = some (.vbool p.done) := rfl

theorem page_dlookup_records (p : Page) :
    dlookup p.toDict "records" = some (.varr p.recs) := rfl

theorem page_dlookup_next (p : Page) :
    (dlookup p.toDict "nextRecordsUrl").getD .vnull = p.nextVal := by
  cases h : p.nextUrl <;> simp [Page.toDict, dlookup, Page.nextVal, h]

theorem resUpdate_lookups (res : PyDict) (recsV dV tV nV : Value) :
    dlookup (dictSet (dictSet (dictSet (dictSet res "records" recsV) "done" dV)
        "totalSize" tV) "nextRecordsUrl" nV) "records" = some recsV ∧
    dlookup (dictSet (dictSet (dictSet (dictSet res "records" recsV) "done" dV)
        "totalSize" tV) "nextRecordsUrl" nV) "done" = some dV ∧
    dlookup (dictSet (dictSet (dictSet (dictSet res "records" recsV) "done" dV)
        "totalSize" tV) "nextRecordsUrl" nV) "totalSize" = some tV ∧
    dlookup (dictSet (dictSet (dictSet (dictSet res "records" recsV) "done" dV)
        "totalSize" tV) "nextRecordsUrl" nV) "nextRecordsUrl" = some nV := by
  refine ⟨?_, ?_, ?_, ?_⟩
  · rw [dlookup_dictSet_ne _ _ _ _ (by decide), dlookup_dictSet_ne _ _ _ _ (by decide),
      dlookup_dictSet_ne _ _ _ _ (by decide), dlookup_dictSet_self]
  · rw [dlookup_dictSet_ne _ _ _ _ (by decide), dlookup_dictSet_ne _ _ _ _ (by decide),
      dlookup_dictSet_self]
  · rw [dlookup_dictSet_ne _ _ _ _ (by decide), dlookup_dictSet_self]
  · rw [dlookup_dictSet_self]

theorem query_all_step (gw : Value → Option Value → Value) (f : Nat) (url : Value)
    (params : Option Value) (d : PyDict) (rs : List Value) (p : Page)
    (hurl : url.isNull = false)
    (hdone : dlookup d "done" = some (.vbool false))
    (hrecs : dlookup d "records" = some (.varr rs))
    (hgw : gw url params = p.toValue) :
    query_all gw (f + 1) url params d
      = query_all gw f p.nextVal none
        (dictSet (dictSet (dictSet (dictSet d "records"
          (.varr (rs ++ p.recs))) "done" (.vbool p.done)) "totalSize"
          (.vint p.totalSize)) "nextRecordsUrl" p.nextVal) := by
  simp only [query_all, hdone, Value.truthy, hurl, hgw, Page.toValue,
    page_dlookup_records, page_dlookup_done, page_dlookup_totalSize,
    page_dlookup_next, hrecs]
  rfl

theorem query_all_exit (gw : Value → Option Value → Value) (f : Nat) (url : Value)
    (params : Option Value) (d : PyDict) (b : Bool)
    (hdone : dlookup d "done" = some (.vbool b))
    (hstop : b = true ∨ url.isNull = true) :
    query_all gw (f + 1) url params d = .ok d := by
  rcases hstop with rfl | hu
  · simp [query_all, hdone, Value.truthy]
  · simp only [query_all, hdone, Value.truthy]
    cases b
    · simp [hu]
    · simp

theorem query_all_chain (gw : Value → Option Value → Value) :
    ∀ (pages : List Page) (hne : pages ≠ []) (url : Value) (params : Option Value)
      (d : PyDict) (rs : List Value) (fuel : Nat),
      chainPages gw url params pages →
      url.isNull = false →
      dlookup d "done" = some (.vbool false) →
      dlookup d "records" = some (.varr rs) →
      pages.length < fuel →
      ((pages.getLast hne).done = true ∨ (pages.getLast hne).nextUrl = none) →
      ∃ d', query_all gw fuel url params d = .ok d' ∧
        dlookup d' "records"
          = some (.varr (rs ++ (pages.map Page.recs).flatten)) ∧
        dlookup d' "done" = some (.vbool (pages.getLast hne).done) ∧
        dlookup d' "totalSize" = some (.vint (pages.getLast hne).totalSize) ∧
        dlookup d' "nextRecordsUrl" = some (pages.getLast hne).nextVal := by
  intro pages
  induction pages with
  | nil => intro hne; exact absurd rfl hne
  | cons p ps ih =>
    intro hne url params d rs fuel hchain hurl hdone hrecs hfuel hlast
    obtain ⟨f, rfl⟩ : ∃ f, fuel = f + 1 := ⟨fuel - 1, by omega⟩
    cases ps with
    | nil =>
      have hgw : gw url params = p.toValue := hchain
      rw [query_all_step gw f url params d rs p hurl hdone hrecs hgw]
      obtain ⟨hr', hd', ht', hn'⟩ := resUpdate_lookups d
        (.varr (rs ++ p.recs)) (.vbool p.done) (.vint p.totalSize) p.nextVal
      obtain ⟨f', rfl⟩ : ∃ f', f = f' + 1 := ⟨f - 1, by simp at hfuel; omega⟩
      have hstop : p.done = true ∨ (p.nextVal).isNull = true := by
        rcases hlast with h | h
        · exact Or.inl (by simpa using h)
        · right
          have : p.nextUrl = none := by simpa using h
          simp [Page.nextVal, this, Value.isNull]
      rw [query_all_exit gw f' p.nextVal none _ p.done hd' hstop]
      refine ⟨_, rfl, ?_, ?_, ?_, ?_⟩
      · simpa using hr'
      · simpa using hd'
      · simpa using ht'
      · simpa using hn'
    | cons q ps' =>
      obtain ⟨hgw, hpdone, u, hpu, hchain'⟩ := hchain
      have hnv : p.nextVal = .vstr u := by simp [Page.nextVal, hpu]
      rw [query_all_step gw f url params d rs p hurl hdone hrecs hgw, hpdone, hnv]
      obtain ⟨hr', hd', ht', hn'⟩ := resUpdate_lookups d
        (.varr (rs ++ p.recs)) (.vbool false) (.vint p.totalSize) (.vstr u)
      have hurl' : (Value.vstr u).isNull = false := rfl
      have hlast' : ((q :: ps').getLast (by simp)).done = true ∨
          ((q :: ps').getLast (by simp)).nextUrl = none := by
        rcases hlast with h | h
        · left
          rwa [@List.getLast_cons _ p (q :: ps') (by simp)] at h
        · right
          rwa [@List.getLast_cons _ p (q :: ps') (by simp)] at h
      obtain ⟨d', hq, hr2, hd2, ht2, hn2⟩ := ih (by simp) (.vstr u) none _
        (rs ++ p.recs) f hchain' hurl' hd' hr' (by simp at hfuel ⊢; omega) hlast'
      refine ⟨d', hq, ?_, ?_, ?_, ?_⟩
      · rw [hr2]
        simp [List.append_assoc]
      · rw [hd2, @List.getLast_cons _ p (q :: ps') (by simp)]
      · rw [ht2, @List.getLast_cons _ p (q :: ps') (by simp)]
      · rw [hn2, @List.getLast_cons _ p (q :: ps') (by simp)]

theorem mapExcept_id {α : Type} (f : α → Except QErr α) (l : List α)
    (h : ∀ x ∈ l, f x = .ok x) : mapExcept f l = .ok l := by
  induction l with
  | nil => rfl
  | cons a as ih =>
    rw [mapExcept, h a (by simp), ih (fun x hx => h x (by simp [hx]))]
    rfl

theorem hnq_value_flat (resolve : List Value → Except QErr (List Value))
    (gw : Value → Option Value → Value) (pf : Nat) (v : Value)
    (h : isCursorDict v = false) : hnq_value resolve gw pf v = .ok v := by
  cases v with
  | vobj d =>
    simp only [isCursorDict] at h
    simp only [hnq_value, h, Bool.false_eq_true, if_false]
    rfl
  | vstr s => rfl
  | vint n => rfl
  | vbool b => rfl
  | vnull => rfl
  | varr l => rfl

theorem hnq_record_flat (resolve : List Value → Except QErr (List Value))
    (gw : Value → Option Value → Value) (pf : Nat) (r : Value)
    (h : flatRecord r = true) : hnq_record resolve gw pf r = .ok r := by
  cases r with
  | vobj fields =>
    simp only [flatRecord, List.all_eq_true] at h
    have hm := mapExcept_id (fun kv => do
        let v' ← hnq_value resolve gw pf kv.2
        pure (kv.1, v')) fields ?_
    · rw [hnq_record, hm]
      rfl
    · intro kv hkv
      have hf : isCursorDict kv.2 = false := by simpa using h kv hkv
      show (do
        let v' ← hnq_value resolve gw pf kv.2
        pure (kv.1, v')) = Except.ok kv
      rw [hnq_value_flat resolve gw pf kv.2 hf]
      rfl
  | vstr s => simp [flatRecord] at h
  | vint n => simp [flatRecord] at h
  | vbool b => simp [flatRecord] at h
  | vnull => simp [flatRecord] at h
  | varr l => simp [flatRecord] at h

theorem hnq_records_flat (gw : Value → Option Value → Value) (pf nf : Nat)
    (recs : List Value) (h : recs.all flatRecord = true) :
    hnq_records gw pf (nf + 1) recs = .ok recs := by
  rw [List.all_eq_true] at h
  rw [hnq_records]
  exact mapExcept_id _ recs
    (fun r hr => hnq_record_flat _ gw pf r (h r hr))

/-- The master reader lemma: if the gateway serves a nonempty page chain
for the query endpoint whose last page is terminal (done, or cursorless),
and every served record is free of nested collections, the wrapper returns
the accumulated dict: records are the page-ordered concatenation, and
done and totalSize are the last page's reported values. -/
theorem query_chain (gw : Value → Option Value → Value) (soql : String)
    (pages : List Page) (hne : pages ≠ []) (pf nf : Nat)
    (hchain : chainPages gw (.vstr "/services/data/v52.0/query")
      (some (.vobj [("q", .vstr soql)])) pages)
    (hlast : (pages.getLast hne).done = true ∨ (pages.getLast hne).nextUrl = none)
    (hflat : ∀ p ∈ pages, p.recs.all flatRecord = true)
    (hpf : pages.length < pf) (hnf : 0 < nf) :
    ∃ res, query gw pf nf soql = .ok res ∧
      dlookup res "records" = some (.varr ((pages.map Page.recs).flatten)) ∧
      dlookup res "totalSize" = some (.vint (pages.getLast hne).totalSize) ∧
      dlookup res "done" = some (.vbool (pages.getLast hne).done) := by
  obtain ⟨d', hq, hrecs', hdone', hts', hnext'⟩ := query_all_chain gw pages hne
    (.vstr "/services/data/v52.0/query") (some (.vobj [("q", .vstr soql)]))
    initResults [] pf hchain rfl rfl rfl hpf hlast
  rw [List.nil_append] at hrecs'
  obtain ⟨nf', rfl⟩ : ∃ m, nf = m + 1 := ⟨nf - 1, by omega⟩
  have hflat' : ((pages.map Page.recs).flatten).all flatRecord = true := by
    rw [List.all_eq_true]
    intro r hr
    rw [List.mem_flatten] at hr
    obtain ⟨l, hl, hrl⟩ := hr
    rw [List.mem_map] at hl
    obtain ⟨p, hp, rfl⟩ := hl
    exact (List.all_eq_true.mp (hflat p hp)) r hrl
  have hh := hnq_records_flat gw pf nf' _ hflat'
  refine ⟨dictSet d' "records" (.varr ((pages.map Page.recs).flatten)),
    ?_, ?_, ?_, ?_⟩
  · rw [query]
    rw [hq]
    show (match dlookup d' "records" with
      | some (.varr recs) => do
        let recs' ← hnq_records gw pf (nf' + 1) recs
        pure (dictSet d' "records" (.varr recs'))
      | some _ => Except.error .typeError
      | none => Except.error (.keyError "records")) = _
    simp only [hrecs', hh]
    rfl
  · rw [dlookup_dictSet_self]
  · rw [dlookup_dictSet_ne _ _ _ _ (by decide)]
    exact hts'
  · rw [dlookup_dictSet_ne _ _ _ _ (by decide)]
    exact hdone'

theorem except_bind_ok {α β : Type} (a : α) (f : α → Except QErr β) :
    (Except.ok a : Except QErr α) >>= f = f a := rfl

/-- Claim C3 amended: for a query whose page chain ends with a done page,
the aggregate record list is the concatenation of all pages in order, and
totalSize is the LAST page's reported value: the loop overwrites totalSize
on every page, so later pages do change it. -/
theorem C3_totalSize_last (gw : Value → Option Value → Value) (soql : String)
    (pages : List Page) (hne : pages ≠ []) (pf nf : Nat)
    (hchain : chainPages gw (.vstr "/services/data/v52.0/query")
      (some (.vobj [("q", .vstr soql)])) pages)
    (hlast : (pages.getLast hne).done = true)
    (hflat : ∀ p ∈ pages, p.recs.all flatRecord = true)
    (hpf : pages.length < pf) (hnf : 0 < nf) :
    ∃ res, query gw pf nf soql = .ok res ∧
      dlookup res "records" = some (.varr ((pages.map Page.recs).flatten)) ∧
      dlookup res "totalSize" = some (.vint (pages.getLast hne).totalSize) := by
  obtain ⟨res, h1, h2, h3, h4⟩ := query_chain gw soql pages hne pf nf hchain
    (Or.inl hlast) hflat hpf hnf
  exact ⟨res, h1, h2, h3⟩

/-- Claim C3 counterexample: with a first page reporting totalSize 5 and a
second page reporting 7, the aggregate totalSize is 7, not the first
page's 5: the claim that later pages cannot change it fails. -/
theorem C3_counterexample :
    queryField (query gwC3 10 10 "SELECT Id FROM Account") "totalSize"
        = some (.vint 7) ∧
    queryField (query gwC3 10 10 "SELECT Id FROM Account") "totalSize"
        ≠ some (.vint 5) := by
  constructor
  · rfl
  · intro hcontra
    have h7 : queryField (query gwC3 10 10 "SELECT Id FROM Account") "totalSize"
        = some (.vint 7) := rfl
    rw [h7] at hcontra
    injection hcontra with h
    injection h with h'
    omega

theorem C3_totalSize_last_witness :
    ∃ res, query gwC3 10 10 "SELECT Id FROM Account" = .ok res ∧
      dlookup res "records"
        = some (.varr (([pageA, pageB].map Page.recs).flatten)) ∧
      dlookup res "totalSize"
        = some (.vint (([pageA, pageB].getLast (by simp)).totalSize)) :=
  C3_totalSize_last gwC3 "SELECT Id FROM Account" [pageA, pageB] (by simp) 10 10
    ⟨rfl, rfl, "/c1", rfl, rfl⟩ rfl
    (by intro p hp
        simp at hp
        rcases hp with rfl | rfl <;> rfl)
    (by simp) (by omega)

/-- Claim C4 amended: a page lacking both done=true and a cursor does not
raise anything; the loop simply stops, the read completes successfully,
and the records accumulated so far, including that page's, are exposed in
the aggregate handed to the return function. -/
theorem C4_incomplete_page_returns (gw : Value → Option Value → Value)
    (soql : String) (pages : List Page) (hne : pages ≠ []) (pf nf : Nat)
    (hchain : chainPages gw (.vstr "/services/data/v52.0/query")
      (some (.vobj [("q", .vstr soql)])) pages)
    (hdone : (pages.getLast hne).done = false)
    (hcur : (pages.getLast hne).nextUrl = none)
    (hflat : ∀ p ∈ pages, p.recs.all flatRecord = true)
    (hpf : pages.length < pf) (hnf : 0 < nf) :
    ∃ res, query gw pf nf soql = .ok res ∧
      dlookup res "records" = some (.varr ((pages.map Page.recs).flatten)) ∧
      dlookup res "done" = some (.vbool false) := by
  obtain ⟨res, h1, h2, h3, h4⟩ := query_chain gw soql pages hne pf nf hchain
    (Or.inr hcur) hflat hpf hnf
  rw [hdone] at h4
  exact ⟨res, h1, h2, h4⟩

/-- Claim C4 counterexample: a page with done false and no nextRecordsUrl
raises no error at all; the read returns ok and the page's records are
exposed to the caller. -/
theorem C4_counterexample :
    query gwC4 10 10 "SELECT Id FROM Account"
      = .ok [("totalSize", .vint 3), ("done", .vbool false),
          ("records", .varr [rec1]), ("nextRecordsUrl", .vnull)] := rfl

theorem C4_incomplete_page_returns_witness :
    ∃ res, query gwC4 10 10 "SELECT Id FROM Account" = .ok res ∧
      dlookup res "records" = some (.varr (([pageC].map Page.recs).flatten)) ∧
      dlookup res "done" = some (.vbool false) :=
  C4_incomplete_page_returns gwC4 "SELECT Id FROM Account" [pageC] (by simp)
    10 10 rfl rfl rfl
    (by intro p hp
        simp at hp
        subst hp
        rfl)
    (by simp) (by omega)

/-- Claim C6: resolution of a nested collection field value: given a dict
with done false, a partial record list and a cursor from which the gateway
serves a page chain ending in a done page, hnq_value extends the stored
record list in place with every reachable page's records, in page order,
after the original partial ones.  The combined child records are then
scanned through the resolver continuation (the recursive
handle_nested_queries), which leaves them unchanged here because they
carry no further cursors; and resolution introduces no duplicates: the
final list is duplicate-free whenever the combined input records are. -/
theorem C6_nested_resolution (gw : Value → Option Value → Value)
    (d : PyDict) (rs : List Value) (c0 : String) (pages : List Page)
    (hne : pages ≠ []) (pf nf : Nat)
    (hdone : dlookup d "done" = some (.vbool false))
    (hrecs : dlookup d "records" = some (.varr rs))
    (hcur : dlookup d "nextRecordsUrl" = some (.vstr c0))
    (hchain : chainPages gw (.vstr c0) none pages)
    (hlast : (pages.getLast hne).done = true)
    (hflat : rs.all flatRecord = true)
    (hflatp : ∀ p ∈ pages, p.recs.all flatRecord = true)
    (hpf : pages.length < pf) :
    ∃ d' finalRecs,
      hnq_value (hnq_records gw pf (nf + 1)) gw pf (.vobj d) = .ok (.vobj d') ∧
      dlookup d' "records" = some (.varr finalRecs) ∧
      finalRecs = rs ++ (pages.map Page.recs).flatten ∧
      ((rs ++ (pages.map Page.recs).flatten).Nodup → finalRecs.Nodup) := by
  obtain ⟨d1, hq, hrecs1, hdone1, hts1, hnext1⟩ := query_all_chain gw pages hne
    (.vstr c0) none d rs pf hchain rfl hdone hrecs hpf (Or.inl hlast)
  have hflatAll : (rs ++ (pages.map Page.recs).flatten).all flatRecord = true := by
    rw [List.all_append, hflat, Bool.true_and, List.all_eq_true]
    intro r hr
    rw [List.mem_flatten] at hr
    obtain ⟨l, hl, hrl⟩ := hr
    rw [List.mem_map] at hl
    obtain ⟨p, hp, rfl⟩ := hl
    exact (List.all_eq_true.mp (hflatp p hp)) r hrl
  have hh := hnq_records_flat gw pf nf _ hflatAll
  refine ⟨dictSet d1 "records" (.varr (rs ++ (pages.map Page.recs).flatten)),
    rs ++ (pages.map Page.recs).flatten, ?_, ?_, rfl, fun h => h⟩
  · simp only [hnq_value, hcur, Option.isSome_some, if_true, Option.getD_some,
      hq, except_bind_ok, hrecs1, hh]
    rfl
  · rw [dlookup_dictSet_self]

theorem C6_nested_resolution_witness :
    ∃ d' finalRecs,
      hnq_value (hnq_records gwC6 10 (3 + 1)) gwC6 10 (.vobj nestedD)
        = .ok (.vobj d') ∧
      dlookup d' "records" = some (.varr finalRecs) ∧
      finalRecs = [childA] ++ ([nestedPage].map Page.recs).flatten ∧
      (([childA] ++ ([nestedPage].map Page.recs).flatten).Nodup →
        finalRecs.Nodup) :=
  C6_nested_resolution gwC6 nestedD [childA] "/n1" [nestedPage] (by simp) 10 3
    rfl rfl rfl rfl rfl rfl
    (by intro p hp
        simp at hp
        subst hp
        rfl)
    (by simp)

end Cloudy

